import Mathlib

/-!
Verification development for the Integrated Gradients explainer of this
repository.  The explainer implementation itself is not present in the
excerpt (only the demonstration notebook `examples/integrated_gradients_mnist.ipynb`
and packaging metadata are), so the data model and the `explain` operation
are modelled from the specification: tensors are flat lists over an exact
commutative ring of scalars (the idealisation of the framework's float
tensors; ℚ is the intended instantiation, and ℤ is used for concrete
evaluations), a model is a black box supplying predictions and per-target
input gradients (automatic differentiation is delegated to the host
framework), and a quadrature method supplies a list of (node, weight)
pairs on [0, 1] for a given step count.
-/

set_option linter.unusedSectionVars false

namespace Alibi

/-- Modelled from the spec: a differentiable black-box model, as exposed by
the host framework.  `predict` maps an input tensor to the output tensor
over classes; `grad t x` is the gradient of output component `t` with
respect to the input, evaluated at `x` (supplied by the framework's
automatic differentiation, hence opaque data here). -/
structure Model (α : Type) where
  predict : List α → List α
  grad : ℕ → List α → List α

variable {α : Type} [CommRing α] {β : Type}

/-- Elementwise difference of two tensors. -/
def vsub (x b : List α) : List α := List.zipWith (fun u v => u - v) x b

/-- Elementwise sum of two tensors. -/
def vadd (u v : List α) : List α := List.zipWith (fun a c => a + c) u v

/-- Scalar multiple of a tensor. -/
def smul (c : α) (v : List α) : List α := v.map (fun a => c * a)

/-- The all-zeros tensor of the same shape as `x` (the default baseline). -/
def zerosLike (x : List α) : List α := x.map (fun _ => 0)

/-- Modelled from the spec: the interpolation point `b + a * (x - b)` on the
straight line from the baseline `b` to the instance `x`, at path
parameter `a`. -/
def interpPoint (b x : List α) (a : α) : List α := vadd b (smul a (vsub x b))

/-- Modelled from the spec: the weighted combination of the model's
gradients at the interpolation points, one (node, weight) pair per
quadrature point, approximating the path integral of the gradient. -/
def weightedGrads (m : Model α) (t : ℕ) (b x : List α) (pts : List (α × α)) : List α :=
  (pts.map (fun p => smul p.2 (m.grad t (interpPoint b x p.1)))).foldr vadd (zerosLike x)

/-- Modelled from the spec: per-feature attributions for one instance —
the weighted gradient combination scaled elementwise by `x - b`. -/
def attributions (m : Model α) (t : ℕ) (b x : List α) (pts : List (α × α)) : List α :=
  List.zipWith (fun d g => d * g) (vsub x b) (weightedGrads m t b x pts)

/-- The model's output at target index `t` (0 when out of range). -/
def outAt (m : Model α) (t : ℕ) (x : List α) : α := (m.predict x).getD t 0

/-- Modelled from the spec: the convergence delta for one instance — the
gap between the sum of the attributions and the difference between the
model's output at the instance and at the baseline (completeness axiom). -/
def delta (m : Model α) (t : ℕ) (b x : List α) (pts : List (α × α)) : α :=
  (attributions m t b x pts).sum - (outAt m t x - outAt m t b)

/-- Modelled from the spec: the uniform (Riemann) quadrature rule with `n`
steps: nodes `k / n` with equal weights `1 / n`. -/
def riemannPoints (γ : Type) [DivisionRing γ] (n : ℕ) : List (γ × γ) :=
  (List.range n).map (fun k : ℕ => ((k : γ) / (n : γ), 1 / (n : γ)))

/-- Modelled from the spec: the explainer configuration — the model, the
quadrature method (its name, and its (node, weight) pairs for a given
step count), the number of integration steps, and the optional internal
batch size used only to bound memory. -/
structure Explainer (α : Type) where
  model : Model α
  methodName : String
  rule : ℕ → List (α × α)
  n_steps : ℕ
  internal_batch_size : Option ℕ

/-- Metadata exposed by an explanation: method name and parameters. -/
structure ExplanationMeta where
  name : String
  methodName : String
  n_steps : ℕ
  internal_batch_size : Option ℕ
  deriving DecidableEq

/-- Modelled from the spec: the explanation result object, bundling
metadata with the data fields attributions, inputs, baselines,
predictions, deltas and targets. -/
structure Explanation (α : Type) where
  meta : ExplanationMeta
  attributions : List (List α)
  inputs : List (List α)
  baselines : List (List α)
  predictions : List (List α)
  deltas : List α
  targets : List ℕ
  deriving DecidableEq

/-- The names of the data fields exposed by an explanation result. -/
def Explanation.dataKeys (_e : Explanation α) : List String :=
  ["attributions", "inputs", "baselines", "predictions", "deltas", "targets"]

/-- Modelled from the spec: the only error `explain` raises — an input
validation failure (shape mismatch between instances, baselines and
targets). -/
inductive ExplainError where
  | shapeMismatch
  deriving DecidableEq

/-- Modelled from the spec: an unspecified baseline batch defaults to
all-zeros tensors of the same shapes as the instances. -/
def resolveBaselines (X : List (List α)) (bls : Option (List (List α))) : List (List α) :=
  bls.getD (X.map zerosLike)

/-- Modelled from the spec: input validation — the baseline batch and the
target batch must have one entry per instance, and each baseline must
have the same shape as its instance. -/
def validateShapes (X B : List (List α)) (T : List ℕ) : Bool :=
  B.length == X.length && T.length == X.length &&
    (X.zip B).all (fun p => p.2.length == p.1.length)

/-- Combine three batches positionally (stopping at the shortest). -/
def zip3With (f : List α → List α → ℕ → β) : List (List α) → List (List α) → List ℕ → List β
  | x :: X, b :: B, t :: T => f x b t :: zip3With f X B T
  | _, _, _ => []

/-- Modelled from the spec: the `explain` operation.  It resolves the
baselines, validates shapes (rejecting mismatches with an error), and
otherwise returns the explanation: per-instance attributions obtained by
combining gradients at the interpolation points with the quadrature
weights and scaling by (instance − baseline), the model predictions, the
per-instance convergence deltas, and the echoed inputs, baselines and
targets, together with the method metadata. -/
def Explainer.explain (e : Explainer α) (X : List (List α)) (bls : Option (List (List α)))
    (T : List ℕ) : Except ExplainError (Explanation α) :=
  if validateShapes X (resolveBaselines X bls) T then
    .ok
      { meta :=
          { name := "IntegratedGradients", methodName := e.methodName,
            n_steps := e.n_steps, internal_batch_size := e.internal_batch_size }
        attributions :=
          zip3With (fun x b t => attributions e.model t b x (e.rule e.n_steps)) X
            (resolveBaselines X bls) T
        inputs := X
        baselines := resolveBaselines X bls
        predictions := X.map e.model.predict
        deltas :=
          zip3With (fun x b t => delta e.model t b x (e.rule e.n_steps)) X
            (resolveBaselines X bls) T
        targets := T }
  else .error .shapeMismatch

/-- Modelled from the spec: `explain` holds no mutable state — threading
the explainer value through a call returns it unchanged alongside the
result. -/
def Explainer.explainRun (e : Explainer α) (X : List (List α)) (bls : Option (List (List α)))
    (T : List ℕ) : Except ExplainError (Explanation α) × Explainer α :=
  (e.explain X bls T, e)

instance {ε γ : Type} [DecidableEq ε] [DecidableEq γ] : DecidableEq (Except ε γ) := fun x y =>
  match x, y with
  | .ok a, .ok b => if h : a = b then .isTrue (by rw [h]) else .isFalse (by simp [h])
  | .error a, .error b => if h : a = b then .isTrue (by rw [h]) else .isFalse (by simp [h])
  | .ok _, .error _ => .isFalse (by simp)
  | .error _, .ok _ => .isFalse (by simp)

/-- A small concrete model used for concrete evaluations: it predicts the
sum of the features, and its gradient (as the host framework would return
it) is the all-ones tensor. -/
def egModel : Model ℤ where
  predict x := [x.sum]
  grad _ x := x.map (fun _ => 1)

/-- An integer-weighted two-point quadrature rule used only for concrete
evaluations (nodes 0..n−1 with unit weights). -/
def egRule (n : ℕ) : List (ℤ × ℤ) := (List.range n).map (fun k : ℕ => ((k : ℤ), 1))

/-- A small concrete explainer over `egModel`. -/
def egExplainer : Explainer ℤ where
  model := egModel
  methodName := "riemann"
  rule := egRule
  n_steps := 2
  internal_batch_size := none

/-- The explanation returned by `egExplainer.explain [[1, 2]] none [0]`. -/
def egExp : Explanation ℤ where
  meta :=
    { name := "IntegratedGradients", methodName := "riemann", n_steps := 2,
      internal_batch_size := none }
  attributions := [[2, 4]]
  inputs := [[1, 2]]
  baselines := [[0, 0]]
  predictions := [[3]]
  deltas := [3]
  targets := [0]

/-- The explanation returned by `egExplainer.explain [[1, 2]] (some [[1, 2]]) [0]`
(baseline equal to the input). -/
def egExp7 : Explanation ℤ where
  meta :=
    { name := "IntegratedGradients", methodName := "riemann", n_steps := 2,
      internal_batch_size := none }
  attributions := [[0, 0]]
  inputs := [[1, 2]]
  baselines := [[1, 2]]
  predictions := [[3]]
  deltas := [0]
  targets := [0]

/-- The explanation returned by `egExplainer.explain [[0, 2]] none [0]`
(first feature equal to its baseline value). -/
def egExp10 : Explanation ℤ where
  meta :=
    { name := "IntegratedGradients", methodName := "riemann", n_steps := 2,
      internal_batch_size := none }
  attributions := [[0, 4]]
  inputs := [[0, 2]]
  baselines := [[0, 0]]
  predictions := [[2]]
  deltas := [2]
  targets := [0]

/-! ### Helper lemmas on the tensor operations -/

theorem length_vsub (x b : List α) : (vsub x b).length = min x.length b.length := by
  simp [vsub]

theorem length_vadd (u v : List α) : (vadd u v).length = min u.length v.length := by
  simp [vadd]

theorem length_smul (c : α) (v : List α) : (smul c v).length = v.length := by
  simp [smul]

theorem length_zerosLike (x : List α) : (zerosLike x).length = x.length := by
  simp [zerosLike]

theorem length_interpPoint (b x : List α) (a : α) (hb : b.length = x.length) :
    (interpPoint b x a).length = x.length := by
  simp [interpPoint, length_vadd, length_smul, length_vsub, hb]

theorem length_weightedGrads (m : Model α) (t : ℕ) (b x : List α) (pts : List (α × α))
    (hg : ∀ t v, (m.grad t v).length = v.length) (hb : b.length = x.length) :
    (weightedGrads m t b x pts).length = x.length := by
  unfold weightedGrads
  induction pts with
  | nil => simp [length_zerosLike]
  | cons p pts ih =>
    simp only [List.map_cons, List.foldr_cons]
    rw [length_vadd, length_smul, hg, length_interpPoint b x p.1 hb, ih]
    simp

theorem length_attributions (m : Model α) (t : ℕ) (b x : List α) (pts : List (α × α))
    (hg : ∀ t v, (m.grad t v).length = v.length) (hb : b.length = x.length) :
    (attributions m t b x pts).length = x.length := by
  rw [attributions, List.length_zipWith, length_vsub, length_weightedGrads m t b x pts hg hb, hb]
  simp

theorem getD_zerosLike (x : List α) (j : ℕ) : (zerosLike x).getD j 0 = 0 := by
  rcases lt_or_ge j (zerosLike x).length with h | h
  · rw [List.getD_eq_getElem _ _ h]
    simp [zerosLike]
  · rw [List.getD_eq_default _ _ h]

theorem getD_vadd (u v : List α) (j : ℕ) (hu : j < u.length) (hv : j < v.length) :
    (vadd u v).getD j 0 = u.getD j 0 + v.getD j 0 := by
  have hj : j < (vadd u v).length := by rw [length_vadd]; omega
  rw [List.getD_eq_getElem _ _ hj, List.getD_eq_getElem _ _ hu, List.getD_eq_getElem _ _ hv]
  exact List.getElem_zipWith

theorem getD_smul (c : α) (v : List α) (j : ℕ) (hv : j < v.length) :
    (smul c v).getD j 0 = c * v.getD j 0 := by
  have hj : j < (smul c v).length := by rw [length_smul]; omega
  rw [List.getD_eq_getElem _ _ hj, List.getD_eq_getElem _ _ hv]
  simp [smul]

theorem getD_vsub (x b : List α) (j : ℕ) (hx : j < x.length) (hb : j < b.length) :
    (vsub x b).getD j 0 = x.getD j 0 - b.getD j 0 := by
  have hj : j < (vsub x b).length := by rw [length_vsub]; omega
  rw [List.getD_eq_getElem _ _ hj, List.getD_eq_getElem _ _ hx, List.getD_eq_getElem _ _ hb]
  exact List.getElem_zipWith

theorem weightedGrads_getD (m : Model α) (t : ℕ) (b x : List α) (pts : List (α × α)) (j : ℕ)
    (hg : ∀ t v, (m.grad t v).length = v.length) (hb : b.length = x.length)
    (hj : j < x.length) :
    (weightedGrads m t b x pts).getD j 0 =
      (pts.map (fun p => p.2 * (m.grad t (interpPoint b x p.1)).getD j 0)).sum := by
  unfold weightedGrads
  induction pts with
  | nil => simpa using getD_zerosLike x j
  | cons p pts ih =>
    simp only [List.map_cons, List.foldr_cons, List.sum_cons]
    rw [getD_vadd _ _ j ?_ ?_, getD_smul _ _ j ?_, ih]
    · rw [hg, length_interpPoint b x p.1 hb]; omega
    · rw [length_smul, hg, length_interpPoint b x p.1 hb]; omega
    · have := length_weightedGrads m t b x pts hg hb
      unfold weightedGrads at this
      omega

theorem attributions_getD (m : Model α) (t : ℕ) (b x : List α) (pts : List (α × α)) (j : ℕ)
    (hb : b.length = x.length) (hj : j < (attributions m t b x pts).length) :
    (attributions m t b x pts).getD j 0 =
      (x.getD j 0 - b.getD j 0) * (weightedGrads m t b x pts).getD j 0 := by
  rw [attributions] at hj ⊢
  have hmin : j < min (vsub x b).length (weightedGrads m t b x pts).length := by
    rw [← List.length_zipWith]; exact hj
  have hxs : j < (vsub x b).length := by omega
  have hws : j < (weightedGrads m t b x pts).length := by omega
  have hx : j < x.length := by rw [length_vsub] at hxs; omega
  have hbj : j < b.length := by rw [length_vsub] at hxs; omega
  rw [List.getD_eq_getElem _ _ hj, List.getD_eq_getElem _ _ hws]
  rw [List.getElem_zipWith]
  rw [← getD_vsub x b j hx hbj, List.getD_eq_getElem _ _ hxs]

theorem vsub_self (x : List α) : vsub x x = zerosLike x := by
  unfold vsub zerosLike
  induction x with
  | nil => rfl
  | cons a x ih => simp [ih]

theorem zipWith_mul_zerosLike (x w : List α) :
    ∀ v ∈ List.zipWith (fun d g => d * g) (zerosLike x) w, v = 0 := by
  induction x generalizing w with
  | nil => simp [zerosLike]
  | cons a x ih =>
    cases w with
    | nil => simp
    | cons g w =>
      have hcons : zerosLike (a :: x) = (0 : α) :: zerosLike x := rfl
      rw [hcons, List.zipWith_cons_cons]
      intro v hv
      rcases List.mem_cons.mp hv with rfl | hv
      · simp
      · exact ih w v hv

theorem attributions_self_eq_zero (m : Model α) (t : ℕ) (x : List α) (pts : List (α × α)) :
    ∀ v ∈ attributions m t x x pts, v = 0 := by
  unfold attributions
  rw [vsub_self]
  exact zipWith_mul_zerosLike x (weightedGrads m t x x pts)

/-! ### Helper lemmas on batch combination and validation -/

theorem length_zip3With (f : List α → List α → ℕ → β) :
    ∀ (X B : List (List α)) (T : List ℕ),
      (zip3With f X B T).length = min X.length (min B.length T.length)
  | [], B, T => by cases B <;> cases T <;> simp [zip3With]
  | x :: X, [], T => by cases T <;> simp [zip3With]
  | x :: X, b :: B, [] => by simp [zip3With]
  | x :: X, b :: B, t :: T => by
    simp only [zip3With, List.length_cons, length_zip3With f X B T]
    omega

theorem zip3With_getD (f : List α → List α → ℕ → β) (d : β) :
    ∀ (X B : List (List α)) (T : List ℕ) (i : ℕ),
      i < X.length → i < B.length → i < T.length →
      (zip3With f X B T).getD i d = f (X.getD i []) (B.getD i []) (T.getD i 0)
  | x :: X, b :: B, t :: T, 0, _, _, _ => by simp [zip3With]
  | x :: X, b :: B, t :: T, i + 1, hx, hb, ht => by
    simp only [zip3With, List.getD_cons_succ]
    exact zip3With_getD f d X B T i (by simpa using hx) (by simpa using hb) (by simpa using ht)

theorem mem_zip3With_same (f : List α → List α → ℕ → β) :
    ∀ (X : List (List α)) (T : List ℕ) (y : β),
      y ∈ zip3With f X X T → ∃ x t, y = f x x t
  | [], T, y => by simp [zip3With]
  | x :: X, [], y => by simp [zip3With]
  | x :: X, t :: T, y => by
    simp only [zip3With, List.mem_cons]
    rintro (rfl | h)
    · exact ⟨x, t, rfl⟩
    · exact mem_zip3With_same f X T y h

theorem validateShapes_iff (X B : List (List α)) (T : List ℕ) :
    validateShapes X B T = true ↔
      B.length = X.length ∧ T.length = X.length ∧
        ∀ p ∈ X.zip B, (Prod.snd p).length = (Prod.fst p).length := by
  simp [validateShapes, List.all_eq_true, and_assoc]

theorem validate_baseline_length (X B : List (List α)) (T : List ℕ) (i : ℕ)
    (hv : validateShapes X B T = true) (hi : i < X.length) :
    (B.getD i []).length = (X.getD i []).length := by
  rw [validateShapes_iff] at hv
  obtain ⟨hB, _, hall⟩ := hv
  have hiz : i < (X.zip B).length := by rw [List.length_zip]; omega
  have hmem : (X.zip B)[i] ∈ X.zip B := List.getElem_mem hiz
  have := hall _ hmem
  rw [List.getElem_zip] at this
  rw [List.getD_eq_getElem _ _ hi, List.getD_eq_getElem _ _ (by omega : i < B.length)]
  exact this

theorem explain_ok_iff (e : Explainer α) (X : List (List α)) (bls : Option (List (List α)))
    (T : List ℕ) (exp : Explanation α) :
    e.explain X bls T = .ok exp ↔
      validateShapes X (resolveBaselines X bls) T = true ∧
      exp =
        { meta :=
            { name := "IntegratedGradients", methodName := e.methodName,
              n_steps := e.n_steps, internal_batch_size := e.internal_batch_size }
          attributions :=
            zip3With (fun x b t => attributions e.model t b x (e.rule e.n_steps)) X
              (resolveBaselines X bls) T
          inputs := X
          baselines := resolveBaselines X bls
          predictions := X.map e.model.predict
          deltas :=
            zip3With (fun x b t => delta e.model t b x (e.rule e.n_steps)) X
              (resolveBaselines X bls) T
          targets := T } := by
  unfold Explainer.explain
  by_cases h : validateShapes X (resolveBaselines X bls) T
  · simp only [h, if_pos, Except.ok.injEq, true_and]
    exact eq_comm
  · simp [h]

/-! ### Claim theorems -/

/-- Claim C1: for every instance explained, the explain operation returns a
scalar delta per instance equal to the deviation from the completeness
axiom — the gap between the sum of the per-feature attributions and the
difference between the model's output (at the target index) at the
instance and at the baseline. -/
theorem claim_C1_delta_is_completeness_gap (e : Explainer α) (X : List (List α))
    (bls : Option (List (List α))) (T : List ℕ) (exp : Explanation α) (i : ℕ)
    (hok : e.explain X bls T = .ok exp) (hi : i < X.length) :
    exp.deltas.getD i 0 =
      (exp.attributions.getD i []).sum -
        (outAt e.model (exp.targets.getD i 0) (exp.inputs.getD i []) -
          outAt e.model (exp.targets.getD i 0) (exp.baselines.getD i [])) := by
  rw [explain_ok_iff] at hok
  obtain ⟨hv, rfl⟩ := hok
  rw [validateShapes_iff] at hv
  obtain ⟨hB, hT, _⟩ := hv
  dsimp only
  rw [zip3With_getD _ (0 : α) X _ T i hi (by omega) (by omega),
      zip3With_getD _ ([] : List α) X _ T i hi (by omega) (by omega)]
  rfl

/-- Claim C1 witness: a concrete call on which the delta equation holds. -/
theorem claim_C1_witness :
    egExplainer.explain [[1, 2]] none [0] = .ok egExp ∧
      egExp.deltas.getD 0 0 =
        (egExp.attributions.getD 0 []).sum -
          (outAt egExplainer.model (egExp.targets.getD 0 0) (egExp.inputs.getD 0 []) -
            outAt egExplainer.model (egExp.targets.getD 0 0) (egExp.baselines.getD 0 [])) :=
  ⟨by decide,
    claim_C1_delta_is_completeness_gap egExplainer [[1, 2]] none [0] egExp 0 (by decide)
      (by decide)⟩

/-- Claim C2: each returned attribution tensor has exactly the same shape
as the corresponding input instance tensor, for every accepted call —
any quadrature rule and any step count — given that the framework's
gradient tensors have the shape of their input. -/
theorem claim_C2_attribution_shape (e : Explainer α) (X : List (List α))
    (bls : Option (List (List α))) (T : List ℕ) (exp : Explanation α) (i : ℕ)
    (hg : ∀ t v, (e.model.grad t v).length = v.length)
    (hok : e.explain X bls T = .ok exp) (hi : i < X.length) :
    (exp.attributions.getD i []).length = (exp.inputs.getD i []).length := by
  rw [explain_ok_iff] at hok
  obtain ⟨hv, rfl⟩ := hok
  have hb := validate_baseline_length X (resolveBaselines X bls) T i hv hi
  rw [validateShapes_iff] at hv
  obtain ⟨hB, hT, _⟩ := hv
  dsimp only
  rw [zip3With_getD _ ([] : List α) X _ T i hi (by omega) (by omega)]
  exact length_attributions _ _ _ _ _ hg hb

/-- Claim C2 witness: a concrete call on which the shape equation holds. -/
theorem claim_C2_witness :
    (∀ t v, (egExplainer.model.grad t v).length = v.length) ∧
      (egExp.attributions.getD 0 []).length = (egExp.inputs.getD 0 []).length :=
  ⟨fun t v => by simp [egExplainer, egModel],
    claim_C2_attribution_shape egExplainer [[1, 2]] none [0] egExp 0
      (fun t v => by simp [egExplainer, egModel]) (by decide) (by decide)⟩

/-- Claim C3: the attributions are computed by evaluating the model's
gradient for the specified target at the interpolation points on the
straight line from baseline to instance, combining the gradients with the
quadrature rule's weights, and scaling the result by (instance −
baseline); moreover the uniform rule supplies one interpolation point per
step, so a step count of N yields N points. -/
theorem claim_C3_quadrature_algorithm (e : Explainer α) (X : List (List α))
    (bls : Option (List (List α))) (T : List ℕ) (exp : Explanation α) (i j : ℕ)
    (hg : ∀ t v, (e.model.grad t v).length = v.length)
    (hok : e.explain X bls T = .ok exp) (hi : i < X.length)
    (hj : j < (X.getD i []).length) :
    (exp.attributions.getD i []).getD j 0 =
      ((exp.inputs.getD i []).getD j 0 - (exp.baselines.getD i []).getD j 0) *
        ((e.rule e.n_steps).map (fun p =>
          p.2 * (e.model.grad (exp.targets.getD i 0)
            (interpPoint (exp.baselines.getD i []) (exp.inputs.getD i []) p.1)).getD j 0)).sum ∧
      ∀ n, (riemannPoints ℚ n).length = n := by
  refine ⟨?_, fun n => by simp only [riemannPoints, List.length_map, List.length_range]⟩
  rw [explain_ok_iff] at hok
  obtain ⟨hv, rfl⟩ := hok
  have hb := validate_baseline_length X (resolveBaselines X bls) T i hv hi
  rw [validateShapes_iff] at hv
  obtain ⟨hB, hT, _⟩ := hv
  dsimp only
  rw [zip3With_getD _ ([] : List α) X _ T i hi (by omega) (by omega)]
  have hlen : j < (attributions e.model (T.getD i 0) ((resolveBaselines X bls).getD i [])
      (X.getD i []) (e.rule e.n_steps)).length := by
    rw [length_attributions _ _ _ _ _ hg hb]; exact hj
  rw [attributions_getD _ _ _ _ _ j hb hlen, weightedGrads_getD _ _ _ _ _ j hg hb hj]

/-- Claim C3 witness: a concrete call on which the quadrature formula for
the attributions holds. -/
theorem claim_C3_witness :
    (egExp.attributions.getD 0 []).getD 0 0 =
      ((egExp.inputs.getD 0 []).getD 0 0 - (egExp.baselines.getD 0 []).getD 0 0) *
        ((egExplainer.rule egExplainer.n_steps).map (fun p =>
          p.2 * (egExplainer.model.grad (egExp.targets.getD 0 0)
            (interpPoint (egExp.baselines.getD 0 []) (egExp.inputs.getD 0 []) p.1)).getD 0 0)).sum ∧
      ∀ n, (riemannPoints ℚ n).length = n :=
  claim_C3_quadrature_algorithm egExplainer [[1, 2]] none [0] egExp 0 0
    (fun t v => by simp [egExplainer, egModel]) (by decide) (by decide) (by decide)

/-- Claim C4: when explain is called without baselines, the baseline used
for every instance is the all-zeros tensor of that instance's shape, and
the call is identical to one with an explicit zero-tensor baseline batch. -/
theorem claim_C4_default_zero_baseline (e : Explainer α) (X : List (List α)) (T : List ℕ) :
    resolveBaselines X (none : Option (List (List α))) = X.map zerosLike ∧
      e.explain X none T = e.explain X (some (X.map zerosLike)) T :=
  ⟨rfl, rfl⟩

/-- Claim C5: explain raises an error exactly when input validation fails
(a shape mismatch between instances, baselines and targets); poor
numerical convergence never raises an error, as validation does not
depend on the computed deltas. -/
theorem claim_C5_error_iff_invalid (e : Explainer α) (X : List (List α))
    (bls : Option (List (List α))) (T : List ℕ) :
    e.explain X bls T = .error .shapeMismatch ↔
      validateShapes X (resolveBaselines X bls) T = false := by
  unfold Explainer.explain
  by_cases h : validateShapes X (resolveBaselines X bls) T
  · simp [h]
  · simp [h]

/-- Claim C6: the explainer holds no state beyond its configuration —
threading the explainer through a call returns it unchanged, and a second
call on the returned explainer with the same arguments yields an equal
result. -/
theorem claim_C6_stateless_reuse (e : Explainer α) (X : List (List α))
    (bls : Option (List (List α))) (T : List ℕ) :
    (e.explainRun X bls T).2 = e ∧
      ((e.explainRun X bls T).2.explainRun X bls T).1 = (e.explainRun X bls T).1 :=
  ⟨rfl, rfl⟩

/-- Claim C7: whenever the baseline passed to explain equals the input
instance, every returned per-feature attribution is zero (for every
model, identity-like ones in particular). -/
theorem claim_C7_equal_baseline_zero_attributions (e : Explainer α) (X : List (List α))
    (T : List ℕ) (exp : Explanation α)
    (hok : e.explain X (some X) T = .ok exp) :
    ∀ a ∈ exp.attributions, ∀ v ∈ a, v = 0 := by
  rw [explain_ok_iff] at hok
  obtain ⟨hv, rfl⟩ := hok
  dsimp only
  intro a ha v hva
  have hres : resolveBaselines X (some X) = X := rfl
  rw [hres] at ha
  obtain ⟨x, t, rfl⟩ := mem_zip3With_same _ X T a ha
  exact attributions_self_eq_zero _ _ _ _ v hva

/-- Claim C7 witness: a concrete call with baseline equal to the input, on
which every attribution is zero. -/
theorem claim_C7_witness :
    egExplainer.explain [[1, 2]] (some [[1, 2]]) [0] = .ok egExp7 ∧
      ∀ a ∈ egExp7.attributions, ∀ v ∈ a, v = 0 :=
  ⟨by decide,
    claim_C7_equal_baseline_zero_attributions egExplainer [[1, 2]] [0] egExp7 (by decide)⟩

/-- Claim C8: every result returned by explain exposes metadata (the
method name and its parameters) and the data fields attributions, inputs,
baselines, predictions, deltas and targets. -/
theorem claim_C8_result_fields (e : Explainer α) (X : List (List α))
    (bls : Option (List (List α))) (T : List ℕ) (exp : Explanation α)
    (hok : e.explain X bls T = .ok exp) :
    exp.meta.name = "IntegratedGradients" ∧
      exp.meta.methodName = e.methodName ∧
      exp.meta.n_steps = e.n_steps ∧
      exp.meta.internal_batch_size = e.internal_batch_size ∧
      exp.dataKeys = ["attributions", "inputs", "baselines", "predictions", "deltas", "targets"] ∧
      exp.inputs = X ∧ exp.baselines = resolveBaselines X bls ∧ exp.targets = T := by
  rw [explain_ok_iff] at hok
  obtain ⟨hv, rfl⟩ := hok
  exact ⟨rfl, rfl, rfl, rfl, rfl, rfl, rfl, rfl⟩

/-- Claim C8 witness: a concrete call whose result exposes the metadata
and the six data fields. -/
theorem claim_C8_witness :
    egExp.meta.name = "IntegratedGradients" ∧
      egExp.meta.methodName = egExplainer.methodName ∧
      egExp.meta.n_steps = egExplainer.n_steps ∧
      egExp.meta.internal_batch_size = egExplainer.internal_batch_size ∧
      egExp.dataKeys =
        ["attributions", "inputs", "baselines", "predictions", "deltas", "targets"] ∧
      egExp.inputs = [[1, 2]] ∧
      egExp.baselines = resolveBaselines [[1, 2]] none ∧ egExp.targets = [0] :=
  claim_C8_result_fields egExplainer [[1, 2]] none [0] egExp (by decide)

/-- Claim C10: at every feature where the instance's value equals the
baseline's value, the attribution returned by explain is exactly zero,
for any model and any step count. -/
theorem claim_C10_unchanged_feature_zero_attribution (e : Explainer α) (X : List (List α))
    (bls : Option (List (List α))) (T : List ℕ) (exp : Explanation α) (i j : ℕ)
    (hok : e.explain X bls T = .ok exp) (hi : i < X.length)
    (heq : (exp.inputs.getD i []).getD j 0 = (exp.baselines.getD i []).getD j 0) :
    (exp.attributions.getD i []).getD j 0 = 0 := by
  rw [explain_ok_iff] at hok
  obtain ⟨hv, rfl⟩ := hok
  have hb := validate_baseline_length X (resolveBaselines X bls) T i hv hi
  rw [validateShapes_iff] at hv
  obtain ⟨hB, hT, _⟩ := hv
  dsimp only at heq ⊢
  rw [zip3With_getD _ ([] : List α) X _ T i hi (by omega) (by omega)]
  rcases lt_or_ge j (attributions e.model (T.getD i 0) ((resolveBaselines X bls).getD i [])
      (X.getD i []) (e.rule e.n_steps)).length with h | h
  · rw [attributions_getD _ _ _ _ _ j hb h, heq, sub_self, zero_mul]
  · rw [List.getD_eq_default _ _ h]

/-- Claim C10 witness: a concrete call with a zero-valued feature under
the default zero baseline, on which that feature's attribution is zero. -/
theorem claim_C10_witness :
    egExplainer.explain [[0, 2]] none [0] = .ok egExp10 ∧
      (egExp10.inputs.getD 0 []).getD 0 0 = (egExp10.baselines.getD 0 []).getD 0 0 ∧
      (egExp10.attributions.getD 0 []).getD 0 0 = 0 :=
  ⟨by decide, by decide,
    claim_C10_unchanged_feature_zero_attribution egExplainer [[0, 2]] none [0] egExp10 0 0
      (by decide) (by decide) (by decide)⟩

end Alibi
